import Mathlib

/-!
Verification of the Twitter account-location flag extension against its
specification.  The JavaScript sources (`content.js`, `pageScript.js`,
`countryFlags.js`) are shallowly embedded: pure functions become Lean
functions, the event-loop-driven queue processor becomes a small-step
transition system, machine time is `Int` milliseconds, and JavaScript
`string | null` values become `Option String`.  JavaScript truthiness is
embedded explicitly where the code relies on it (`location || null`,
`data.expiry && ...`, `if (!location)`).
-/

namespace TwitterFlags

/-- JavaScript `x || null` for a `string | null` value: the empty string is
falsy and collapses to `null`. -/
def jsOrNull : Option String → Option String
  | none => none
  | some s => if s = "" then none else some s

/-- JavaScript `String.prototype.toLowerCase`, restricted to ASCII: on ASCII
strings this agrees exactly with JS (only `A`–`Z` change); the full-Unicode
simple case mapping (e.g. U+212A KELVIN SIGN → `k`) is not modeled, so
theorems about case-insensitive matching carry an ASCII hypothesis. -/
def jsToLower (s : String) : String := ⟨s.data.map Char.toLower⟩

/-- The exact character class removed by JS `String.prototype.trim`
(ECMA-262 WhiteSpace and LineTerminator): TAB, LF, VT, FF, CR, SP, NBSP,
OGHAM SPACE, U+2000–U+200A, LS, PS, NNBSP, MMSP, IDEOGRAPHIC SPACE, BOM. -/
def jsWhitespace (c : Char) : Bool :=
  c.toNat == 0x9 || c.toNat == 0xA || c.toNat == 0xB || c.toNat == 0xC ||
  c.toNat == 0xD || c.toNat == 0x20 || c.toNat == 0xA0 || c.toNat == 0x1680 ||
  (0x2000 ≤ c.toNat && c.toNat ≤ 0x200A) ||
  c.toNat == 0x2028 || c.toNat == 0x2029 || c.toNat == 0x202F ||
  c.toNat == 0x205F || c.toNat == 0x3000 || c.toNat == 0xFEFF

/-- Drop JS whitespace from both ends of a character list. -/
def trimChars (l : List Char) : List Char :=
  ((l.dropWhile jsWhitespace).reverse.dropWhile jsWhitespace).reverse

/-- JavaScript `String.prototype.trim`. -/
def jsTrim (s : String) : String := ⟨trimChars s.data⟩

/-- Whether every character of a string is ASCII.  On such strings `jsTrim`
and `jsToLower` agree exactly with the JS `trim`/`toLowerCase` the source
calls. -/
def isAsciiStr (s : String) : Bool := s.data.all (fun c => c.toNat < 128)

/-- JavaScript `s.startsWith(p)`. -/
def strStartsWith (s p : String) : Bool := p.data.isPrefixOf s.data

/-- Whether `pat` occurs as a contiguous run inside a character list. -/
def listInfix (pat : List Char) : List Char → Bool
  | [] => pat.isPrefixOf []
  | c :: rest => pat.isPrefixOf (c :: rest) || listInfix pat rest

/-- JavaScript `s.includes(p)`. -/
def strIncludes (s p : String) : Bool := listInfix p.data s.data

/-- `COUNTRY_FLAGS` from `countryFlags.js`: the static country-name → flag
table, in source order (JS object literals enumerate string keys in
insertion order). -/
def COUNTRY_FLAGS : List (String × String) :=
  [("Afghanistan", "🇦🇫"), ("Albania", "🇦🇱"), ("Algeria", "🇩🇿"),
   ("Argentina", "🇦🇷"), ("Australia", "🇦🇺"), ("Austria", "🇦🇹"),
   ("Bangladesh", "🇧🇩"), ("Belgium", "🇧🇪"), ("Brazil", "🇧🇷"),
   ("Canada", "🇨🇦"), ("Chile", "🇨🇱"), ("China", "🇨🇳"),
   ("Colombia", "🇨🇴"), ("Czech Republic", "🇨🇿"), ("Denmark", "🇩🇰"),
   ("Egypt", "🇪🇬"), ("Finland", "🇫🇮"), ("France", "🇫🇷"),
   ("Germany", "🇩🇪"), ("Greece", "🇬🇷"), ("Hong Kong", "🇭🇰"),
   ("Hungary", "🇭🇺"), ("India", "🇮🇳"), ("Indonesia", "🇮🇩"),
   ("Iran", "🇮🇷"), ("Iraq", "🇮🇶"), ("Ireland", "🇮🇪"),
   ("Israel", "🇮🇱"), ("Italy", "🇮🇹"), ("Japan", "🇯🇵"),
   ("Kenya", "🇰🇪"), ("Malaysia", "🇲🇾"), ("Mexico", "🇲🇽"),
   ("Netherlands", "🇳🇱"), ("New Zealand", "🇳🇿"), ("Nigeria", "🇳🇬"),
   ("Norway", "🇳🇴"), ("Pakistan", "🇵🇰"), ("Philippines", "🇵🇭"),
   ("Poland", "🇵🇱"), ("Portugal", "🇵🇹"), ("Romania", "🇷🇴"),
   ("Russia", "🇷🇺"), ("Saudi Arabia", "🇸🇦"), ("Singapore", "🇸🇬"),
   ("South Africa", "🇿🇦"), ("South Korea", "🇰🇷"), ("Spain", "🇪🇸"),
   ("Sweden", "🇸🇪"), ("Switzerland", "🇨🇭"), ("Taiwan", "🇹🇼"),
   ("Thailand", "🇹🇭"), ("Turkey", "🇹🇷"), ("Ukraine", "🇺🇦"),
   ("United Arab Emirates", "🇦🇪"), ("United Kingdom", "🇬🇧"),
   ("United States", "🇺🇸"), ("Venezuela", "🇻🇪"), ("Vietnam", "🇻🇳")]

/-- A JavaScript value as `getCountryFlag` can return it: `null`, a string,
or a member inherited from `Object.prototype` (a function, or the
`Object.prototype` object itself for `__proto__`) — `COUNTRY_FLAGS` is a
plain object literal, so a property read on it walks the prototype
chain. -/
inductive JsValue
  | nullv
  | str (s : String)
  | protoMember (name : String)
deriving DecidableEq

/-- The property names every object literal inherits from
`Object.prototype`; reading any of these off `COUNTRY_FLAGS` yields a
truthy value (a built-in function, or an object for `__proto__`). -/
def OBJECT_PROTOTYPE_MEMBERS : List String :=
  ["constructor", "hasOwnProperty", "isPrototypeOf", "propertyIsEnumerable",
   "toLocaleString", "toString", "valueOf", "__proto__",
   "__defineGetter__", "__defineSetter__", "__lookupGetter__", "__lookupSetter__"]

/-- `getCountryFlag(countryName)` from `countryFlags.js`.  A `none` argument
models a `null`/`undefined` country name.  `if (!countryName)` rejects
null and the empty string.  The lookup `COUNTRY_FLAGS[countryName]` reads
an own entry first and otherwise walks the prototype chain, and the read
value is returned whenever it is truthy — so a name such as `"toString"`
returns the inherited `Object.prototype` member, not `null`.  Only a falsy
read (no own entry and no inherited member; or an own empty-string value)
falls through to the first-match scan comparing lowercased keys against
the trimmed, lowercased input (`Object.entries` enumerates own entries
only). -/
def getCountryFlag (countryName : Option String) : JsValue :=
  match countryName with
  | none => JsValue.nullv
  | some name =>
    if name = "" then JsValue.nullv
    else
      let scan :=
        match COUNTRY_FLAGS.find?
            (fun e => jsToLower e.1 == jsToLower (jsTrim name)) with
        | some e => JsValue.str e.2
        | none => JsValue.nullv
      match COUNTRY_FLAGS.find? (fun e => e.1 == name) with
      | some e => if e.2 = "" then scan else JsValue.str e.2
      | none =>
        if name ∈ OBJECT_PROTOTYPE_MEMBERS then JsValue.protoMember name
        else scan

/-- JavaScript truthiness of the looked-up flag value (`if (!flag)`): `null`
and the empty string are falsy; an inherited `Object.prototype` member is
truthy. -/
def jsValueTruthy : JsValue → Bool
  | JsValue.nullv => false
  | JsValue.str s => !(s == "")
  | JsValue.protoMember _ => true

/-- JavaScript template-literal coercion of the looked-up flag value, as in
the span text `` ` ${flag}` ``: a string renders itself; an inherited
built-in function renders as its source text; the `__proto__` object
renders as `[object Object]`. -/
def jsTemplateString : JsValue → String
  | JsValue.nullv => "null"
  | JsValue.str s => s
  | JsValue.protoMember name =>
    if name == "__proto__" then "[object Object]"
    else "function " ++ name ++ "() { [native code] }"

/-! ### Persistent cache (`content.js`, lines 1–70)

The in-memory `locationCache` is a `Map` from handle to
`string | null`; we model it as an association list in insertion order.
Durable storage holds one serialized blob of `StoredEntry` records. -/

/-- `CACHE_EXPIRY_DAYS * 24 * 60 * 60 * 1000`: the 30-day lifetime stamped on
every entry at save time. -/
def CACHE_EXPIRY_MS : Int := 30 * 24 * 60 * 60 * 1000

/-- One record of the serialized cache blob
(`{ location, expiry, cachedAt }`).  Fields are optional because a stored
blob of unknown shape may lack them. -/
structure StoredEntry where
  location : Option String
  expiry : Option Int
  cachedAt : Option Int
deriving DecidableEq

/-- `Map.set`: replace the binding in place if the key is present, else
append it. -/
def cacheInsert (c : List (String × Option String)) (u : String)
    (loc : Option String) : List (String × Option String) :=
  if c.any (fun e => e.1 == u) then
    c.map (fun e => if e.1 == u then (u, loc) else e)
  else c ++ [(u, loc)]

/-- `Map.get`/`Map.has` combined: `some v` when the handle is bound to `v`
(where `v` may itself be `none`, the cached `null`), `none` when absent. -/
def cacheGet (c : List (String × Option String)) (u : String) :
    Option (Option String) :=
  (c.find? (fun e => e.1 == u)).map (fun e => e.2)

/-- `loadCache()` (`content.js` lines 19–37): on a successful read, admit each
stored entry whose `expiry` field is truthy (`data.expiry && ...`, so a
missing or zero expiry is dropped) and strictly later than `now`; any
read/parse error yields the empty cache. -/
def loadCache (blob : Except String (List (String × StoredEntry)))
    (now : Int) : List (String × Option String) :=
  match blob with
  | .error _ => []
  | .ok entries =>
    entries.filterMap (fun ud =>
      match ud.2.expiry with
      | some e => if e ≠ 0 ∧ now < e then some (ud.1, ud.2.location) else none
      | none => none)

/-- The load contract as the specification words it (§4.2): an entry is
admitted exactly when its expiry field exists and `expiryEpochMs > now`;
compare with `loadCache`, whose truthiness test also drops a zero expiry. -/
def loadCacheSpecView (entries : List (String × StoredEntry)) (now : Int) :
    List (String × Option String) :=
  entries.filterMap (fun ud =>
    match ud.2.expiry with
    | some e => if now < e then some (ud.1, ud.2.location) else none
    | none => none)

/-- `saveCache()` (`content.js` lines 40–58): serialize the full in-memory map,
stamping every entry with the same fresh `expiry = now + 30 days` and
`cachedAt = now`. -/
def saveCache (cache : List (String × Option String)) (now : Int) :
    List (String × StoredEntry) :=
  cache.map (fun e => (e.1, ⟨e.2, some (now + CACHE_EXPIRY_MS), some now⟩))

/-- State of the cache plus its debounced persist machinery:
`saveTimeout` is `saveCache.timeout` (the scheduled fire time, `none` when
no persist is pending) and `persistedBlobs` records every blob written to
durable storage, in order. -/
structure CacheIOState where
  cache : List (String × Option String)
  saveTimeout : Option Int
  persistedBlobs : List (List (String × StoredEntry))
deriving DecidableEq

/-- The debounce timer's callback: write the serialized cache and clear
`saveCache.timeout`. -/
def fireSave (s : CacheIOState) (now : Int) : CacheIOState :=
  { cache := s.cache, saveTimeout := none,
    persistedBlobs := s.persistedBlobs ++ [saveCache s.cache now] }

/-- The event loop runs a due debounce timer before any later code. -/
def fireSaveIfDue (s : CacheIOState) (now : Int) : CacheIOState :=
  match s.saveTimeout with
  | some ft => if ft ≤ now then fireSave s now else s
  | none => s

/-- `saveCacheEntry(username, location)` (`content.js` lines 61–70): set the
in-memory value immediately; schedule a persist `now + 5000` only when none
is pending (`if (!saveCache.timeout)`). -/
def saveCacheEntry (s : CacheIOState) (now : Int) (username : String)
    (location : Option String) : CacheIOState :=
  { cache := cacheInsert s.cache username location,
    saveTimeout := some (s.saveTimeout.getD (now + 5000)),
    persistedBlobs := s.persistedBlobs }

/-- Run a sequence of timed `saveCacheEntry` calls, firing any due debounce
timer before each call (single-threaded event loop). -/
def runPuts : CacheIOState → List (Int × String × Option String) → CacheIOState
  | s, [] => s
  | s, (t, u, loc) :: rest => runPuts (saveCacheEntry (fireSaveIfDue s t) t u loc) rest

/-- Let a still-pending debounce timer fire at its scheduled time. -/
def drainSaveTimer (s : CacheIOState) : CacheIOState :=
  match s.saveTimeout with
  | some ft => fireSave s ft
  | none => s

/-! ### `getUserLocation` (`content.js`, lines 187–199) -/

/-- Result of `getUserLocation`: a synchronous cache hit, or a pending
promise after the handle was pushed onto the request queue. -/
inductive LookupResult
  | cached (location : Option String)
  | queued
deriving DecidableEq

/-- The content script state that `getUserLocation` touches: the in-memory
cache, the request queue, and a counter of durable-storage operations. -/
structure ContentState where
  locationCache : List (String × Option String)
  requestQueue : List String
  storageAccesses : Nat
deriving DecidableEq

/-- `getUserLocation(screenName)`: answer from the in-memory cache when the
handle is bound (even to `null`); otherwise push the handle onto the
request queue.  (On a miss the real code also invokes
`processRequestQueue`; dispatching is modeled by `QStep` below.) -/
def getUserLocation (st : ContentState) (screenName : String) :
    LookupResult × ContentState :=
  match cacheGet st.locationCache screenName with
  | some v => (LookupResult.cached v, st)
  | none => (LookupResult.queued, { st with requestQueue := st.requestQueue ++ [screenName] })

/-! ### `makeLocationRequest` (`content.js`, lines 146–184)

One pending request: its `postMessage` response listener, its promise, and
its view of the shared in-memory cache.  The 10-second timeout is armed at
dispatch and — in the source — never cleared. -/

/-- A `window` message as seen by the response listener. -/
structure MsgEvent where
  sourceIsWindow : Bool
  type : String
  screenName : String
  requestId : Int
  location : Option String
deriving DecidableEq

/-- How the request's promise settled. -/
inductive PromiseOutcome
  | resolvedWith (v : Option String)
  | rejectedWith (err : String)
deriving DecidableEq

/-- Promise semantics: only the first settlement counts. -/
def resolveOnce : Option PromiseOutcome → Option String → Option PromiseOutcome
  | none, v => some (PromiseOutcome.resolvedWith v)
  | some r, _ => some r

/-- A dispatched request awaiting its `__locationResponse`. -/
structure PendingRequest where
  screenName : String
  requestId : Int
  listenerActive : Bool
  outcome : Option PromiseOutcome
  cache : List (String × Option String)
deriving DecidableEq

/-- The listener's guard: the message comes from the window, has type
`__locationResponse`, and carries this request's handle and id. -/
def matchesRequest (screenName : String) (requestId : Int) (ev : MsgEvent) : Bool :=
  ev.sourceIsWindow && ev.type == "__locationResponse" &&
    ev.screenName == screenName && ev.requestId == requestId

/-- State at dispatch: listener armed, promise pending. -/
def initRequest (screenName : String) (requestId : Int)
    (cache : List (String × Option String)) : PendingRequest :=
  { screenName := screenName, requestId := requestId, listenerActive := true,
    outcome := none, cache := cache }

/-- The `message` handler: on a matching event, remove the listener, cache
`location || null`, and resolve with `location || null`. -/
def handleLocationMessage (req : PendingRequest) (ev : MsgEvent) : PendingRequest :=
  if req.listenerActive && matchesRequest req.screenName req.requestId ev then
    { req with
      listenerActive := false,
      cache := cacheInsert req.cache req.screenName (jsOrNull ev.location),
      outcome := resolveOnce req.outcome (jsOrNull ev.location) }
  else req

/-- Deliver a sequence of window messages to the listener. -/
def runMessages (req : PendingRequest) (evs : List MsgEvent) : PendingRequest :=
  evs.foldl handleLocationMessage req

/-- The 10-second timeout callback (`content.js` lines 178–182): remove the
listener, cache `null` for the handle, resolve `null`.  The source never
calls `clearTimeout`, so this runs 10 s after every dispatch. -/
def fireRequestTimeout (req : PendingRequest) : PendingRequest :=
  { req with
    listenerActive := false,
    cache := cacheInsert req.cache req.screenName none,
    outcome := resolveOnce req.outcome none }

/-! ### Request queue / rate limiter (`content.js`, lines 92–143)

`processRequestQueue` is an `async` function whose only suspension point is
the inter-request throttle sleep; we model it as a transition system.  A
state between event-loop turns records the clock (ms), the queue, whether a
run is suspended in its sleep (`sleepUntil`, which is exactly when
`isProcessingQueue` is `true` between turns), the globals
`lastRequestTime`, `activeRequests` and `rateLimitResetTime` (seconds), the
pending `setTimeout(processRequestQueue, …)` timers, the dispatched but
unresolved requests, and the history of dispatch start times (newest
first). -/

/-- `MIN_REQUEST_INTERVAL` (ms). -/
def MIN_REQUEST_INTERVAL : Int := 2000

/-- `MAX_CONCURRENT_REQUESTS`. -/
def MAX_CONCURRENT_REQUESTS : Nat := 2

/-- State of the queue processor between event-loop turns. -/
structure QueueState where
  time : Int
  requestQueue : List Nat
  sleepUntil : Option Int
  lastRequestTime : Int
  activeRequests : Nat
  rateLimitResetTime : Int
  pendingTimers : List Int
  inFlight : List Nat
  dispatchTimes : List Int
deriving DecidableEq

/-- Lines 123–128: shift the queue head, bump `activeRequests`, stamp
`lastRequestTime = Date.now()`, and start the request. -/
def dispatchHead (s : QueueState) : QueueState :=
  match s.requestQueue with
  | [] => s
  | id :: rest =>
    { s with requestQueue := rest,
             activeRequests := s.activeRequests + 1,
             lastRequestTime := s.time,
             inFlight := id :: s.inFlight,
             dispatchTimes := s.time :: s.dispatchTimes }

/-- The `while` loop of lines 114–140, run until it exits
(`isProcessingQueue = false`) or suspends in the throttle sleep.  After a
dispatch the next iteration finds `time - lastRequestTime = 0 <
MIN_REQUEST_INTERVAL`, so the recursion depth is bounded by the queue
length; the fuel makes that structural. -/
def loopIterFuel : Nat → QueueState → QueueState
  | 0, s => s
  | fuel + 1, s =>
    if s.requestQueue = [] ∨ MAX_CONCURRENT_REQUESTS ≤ s.activeRequests then
      { s with sleepUntil := none }
    else if s.time - s.lastRequestTime < MIN_REQUEST_INTERVAL then
      { s with sleepUntil := some (s.lastRequestTime + MIN_REQUEST_INTERVAL) }
    else
      loopIterFuel fuel (dispatchHead s)

/-- The dispatch loop with enough fuel for its queue. -/
def loopIter (s : QueueState) : QueueState :=
  loopIterFuel (s.requestQueue.length + 1) s

/-- A fresh invocation of `processRequestQueue()`: return at once when a run
is in progress or the queue is empty (line 94); while rate limited
(line 99–105: `rateLimitResetTime > 0` and `now < rateLimitResetTime` in
seconds) schedule a recheck after `min(waitTime, 60000)` and dispatch
nothing; otherwise clear an expired limit and enter the dispatch loop. -/
def processRequestQueue (s : QueueState) : QueueState :=
  if s.sleepUntil.isSome ∨ s.requestQueue.isEmpty then s
  else if 0 < s.rateLimitResetTime ∧ s.time / 1000 < s.rateLimitResetTime then
    { s with pendingTimers := s.pendingTimers ++
        [s.time + min ((s.rateLimitResetTime - s.time / 1000) * 1000) 60000] }
  else
    loopIter { s with rateLimitResetTime :=
        if 0 < s.rateLimitResetTime then 0 else s.rateLimitResetTime }

/-- The globals at page load: empty queue, `lastRequestTime = 0`,
`activeRequests = 0`, `rateLimitResetTime = 0`. -/
def initialQueueState (t : Int) : QueueState :=
  { time := t, requestQueue := [], sleepUntil := none, lastRequestTime := 0,
    activeRequests := 0, rateLimitResetTime := 0, pendingTimers := [],
    inFlight := [], dispatchTimes := [] }

/-- One event-loop turn touching the queue processor.  `arrive` is
`getUserLocation` pushing a handle and invoking `processRequestQueue`;
`timerFire` runs a due `setTimeout(processRequestQueue, …)`; `resume`
continues a run out of its throttle sleep — the source then dispatches
immediately, with no fresh rate-limit check; `complete` is a request's
`finally` (decrement `activeRequests`, schedule a re-invocation in 200 ms);
`rateLimitSignal` is the `__rateLimitInfo` message handler
(`content.js` lines 82–89), an unconditional overwrite. -/
inductive QStep : QueueState → QueueState → Prop
  | arrive (s : QueueState) (id : Nat) (t : Int) (ht : s.time ≤ t) :
      QStep s (processRequestQueue
        { s with time := t, requestQueue := s.requestQueue ++ [id] })
  | timerFire (s : QueueState) (t r : Int) (ht : s.time ≤ t)
      (hmem : r ∈ s.pendingTimers) (hdue : r ≤ t) :
      QStep s (processRequestQueue
        { s with time := t, pendingTimers := s.pendingTimers.erase r })
  | resume (s : QueueState) (t r : Int) (ht : s.time ≤ t)
      (hs : s.sleepUntil = some r) (hdue : r ≤ t) :
      QStep s (loopIter (dispatchHead { s with time := t, sleepUntil := none }))
  | complete (s : QueueState) (id : Nat) (t : Int) (ht : s.time ≤ t)
      (hid : id ∈ s.inFlight) :
      QStep s { s with
                time := t, inFlight := s.inFlight.erase id,
                activeRequests := s.activeRequests - 1,
                pendingTimers := s.pendingTimers ++ [t + 200] }
  | rateLimitSignal (s : QueueState) (resetTime t : Int) (ht : s.time ≤ t) :
      QStep s { s with time := t, rateLimitResetTime := resetTime }

/-- States reachable from page load (at a nonnegative epoch time). -/
inductive QReach : QueueState → Prop
  | init (t : Int) (ht : 0 ≤ t) : QReach (initialQueueState t)
  | step {s s' : QueueState} : QReach s → QStep s s' → QReach s'

/-- Queue invariant, sleep-independent part: the concurrency bound, the
2-second spacing of recorded dispatch start times (newest first), and the
link between the newest dispatch time and `lastRequestTime`. -/
def LoopInv (s : QueueState) : Prop :=
  s.activeRequests ≤ MAX_CONCURRENT_REQUESTS ∧
  List.Chain' (fun a b => b + MIN_REQUEST_INTERVAL ≤ a) s.dispatchTimes ∧
  (s.dispatchTimes = [] ∨ s.dispatchTimes.head? = some s.lastRequestTime)

/-- What holds of a run suspended in its throttle sleep: it resumes at
`lastRequestTime + MIN_REQUEST_INTERVAL`, it held a free concurrency slot,
and the queue still holds the request it will dispatch on resume. -/
def SleepInv (s : QueueState) : Prop :=
  ∀ r, s.sleepUntil = some r →
    r = s.lastRequestTime + MIN_REQUEST_INTERVAL ∧
    s.activeRequests < MAX_CONCURRENT_REQUESTS ∧
    s.requestQueue ≠ []

/-- The full queue invariant. -/
def QInv (s : QueueState) : Prop := LoopInv s ∧ SleepInv s

/-- Concrete trace, step 0: page load at epoch millisecond 1000000. -/
def qs0 : QueueState := initialQueueState 1000000

/-- Step 1: handle 1 arrives at 1000000 and is dispatched at once. -/
def qs1 : QueueState :=
  processRequestQueue { qs0 with time := 1000000, requestQueue := qs0.requestQueue ++ [1] }

/-- Step 2: handle 2 arrives at 1000000; the run suspends in its throttle
sleep until 1002000. -/
def qs2 : QueueState :=
  processRequestQueue { qs1 with time := 1000000, requestQueue := qs1.requestQueue ++ [2] }

/-- Step 3 of the spacing trace: the sleeping run resumes at 1002500 and
dispatches handle 2. -/
def qs3 : QueueState :=
  loopIter (dispatchHead { qs2 with time := 1002500, sleepUntil := none })

/-- Rate-limit trace, step 3: while the run sleeps, a `__rateLimitInfo`
message at 1000100 sets a reset time far in the future (epoch second
2000000). -/
def qsA : QueueState := { qs2 with time := 1000100, rateLimitResetTime := 2000000 }

/-- Rate-limit trace, step 4: the sleeping run resumes at 1002500 and
dispatches handle 2 without consulting the rate-limit state. -/
def qsB : QueueState :=
  loopIter (dispatchHead { qsA with time := 1002500, sleepUntil := none })

/-- An idle, rate-limited state with one queued handle: clock 1000000 ms,
reset at epoch second 1005. -/
def qLimited : QueueState :=
  { initialQueueState 1000000 with requestQueue := [7], rateLimitResetTime := 1005 }

/-! ### DOM scanner / annotator (`content.js`, lines 201–364)

A container element is abstracted to what the scanner reads and writes: its
`data-flag-added` tag, its outbound links (`a[href^="/"]`, document order),
the links inside a `[data-testid="UserName"]` descendant when one exists,
whether the chosen link's parent already holds a `[data-twitter-flag]`
node, and the list of flag spans inserted so far. -/

/-- One anchor: its `href`, its visible text, and whether its parent already
contains a `[data-twitter-flag]` element. -/
structure DomLink where
  href : String
  text : String
  hasFlagSibling : Bool
deriving DecidableEq

/-- A scanned container element. -/
structure Container where
  flagAdded : Option String
  links : List DomLink
  userNameLinks : Option (List DomLink)
  insertedFlags : List String
deriving DecidableEq

/-- The non-profile route segments filtered out by `extractUsername`. -/
def EXCLUDED_SEGMENTS : List String :=
  ["home", "explore", "notifications", "messages", "i", "compose", "search"]

/-- The regex `^\/([^\/\?]+)`: the leading path segment of an href. -/
def hrefSegment (href : String) : Option String :=
  match href.data with
  | '/' :: rest =>
    let seg := rest.takeWhile (fun c => !(c == '/' || c == '?'))
    if seg.isEmpty then none else some (String.mk seg)
  | _ => none

/-- Segment filter of the first pass: not a known route, not a hashtag. -/
def validPrimarySegment (seg : String) : Bool :=
  !(EXCLUDED_SEGMENTS.contains seg) && !(strStartsWith seg "hashtag")

/-- First pass of `extractUsername`: the links under the
`[data-testid="UserName"]` block, first qualifying segment wins. -/
def extractFromUserNameBlock (links : List DomLink) : Option String :=
  links.findSome? (fun l =>
    match hrefSegment l.href with
    | some seg => if validPrimarySegment seg then some seg else none
    | none => none)

/-- Fallback pass of `extractUsername`: any outbound link whose segment also
avoids `status` and whose trimmed text starts with `@` or equals the
segment case-insensitively. -/
def extractFromAnyLink (links : List DomLink) : Option String :=
  links.findSome? (fun l =>
    match hrefSegment l.href with
    | some seg =>
      if validPrimarySegment seg && !(strIncludes seg "status") then
        let text := jsTrim l.text
        if text != "" && strStartsWith text "@" then some seg
        else if text != "" && jsToLower text == jsToLower seg then some seg
        else none
      else none
    | none => none)

/-- `extractUsername(element)` (`content.js` lines 202–252).  When a
`UserName` block exists but yields nothing the code falls through to the
fallback pass. -/
def extractUsername (el : Container) : Option String :=
  match el.userNameLinks with
  | some links =>
    match extractFromUserNameBlock links with
    | some s => some s
    | none => extractFromAnyLink el.links
  | none => extractFromAnyLink el.links

/-- Strategies 1 and 2 of the link search: href exactly `/name` or starting
with `/name?`. -/
def hrefMatchesProfile (screenName : String) (href : String) : Bool :=
  href == "/" ++ screenName || strStartsWith href ("/" ++ screenName ++ "?")

/-- The three-strategy username-link search of
`addFlagToUsername` (`content.js` lines 279–310). -/
def findUsernameLink (el : Container) (screenName : String) : Option DomLink :=
  match el.links.find? (fun l => hrefMatchesProfile screenName l.href) with
  | some l => some l
  | none =>
    match el.userNameLinks.bind
        (fun ls => ls.find? (fun l => hrefMatchesProfile screenName l.href)) with
    | some l => some l
    | none => el.links.find? (fun l => hrefSegment l.href == some screenName)

/-- `addFlagToUsername(usernameElement, screenName)` (`content.js`
lines 255–343), with the awaited `getUserLocation` answer passed as the
`location` oracle.  `if (!location)` treats `null` and the empty string as
missing; `if (!flag)` likewise tests truthiness, so a truthy inherited
prototype member passes as a flag and gets interpolated; a found
flag-sibling marks the element done without inserting. -/
def addFlagToUsername (el : Container) (screenName : String)
    (location : Option String) : Container :=
  if el.flagAdded == some "true" then el
  else
    let el1 := { el with flagAdded := some "processing" }
    match jsOrNull location with
    | none => { el1 with flagAdded := some "failed" }
    | some loc =>
      let flag := getCountryFlag (some loc)
      if !jsValueTruthy flag then { el1 with flagAdded := some "failed" }
      else
        match findUsernameLink el1 screenName with
        | none => { el1 with flagAdded := some "failed" }
        | some link =>
          if link.hasFlagSibling then { el1 with flagAdded := some "true" }
          else { el1 with
                 flagAdded := some "true",
                 insertedFlags := el1.insertedFlags ++ [" " ++ jsTemplateString flag] }

/-- Truthiness of `container.dataset.flagAdded`: absent or empty is falsy. -/
def tagFalsy : Option String → Bool
  | none => true
  | some s => s == ""

/-- One container's treatment in a `processUsernames` pass
(`content.js` lines 352–363): extract a handle and process the element when
its tag is falsy or `failed`. -/
def scanContainer (locationOf : String → Option String) (el : Container) : Container :=
  match extractUsername el with
  | none => el
  | some screenName =>
    if tagFalsy el.flagAdded || el.flagAdded == some "failed" then
      addFlagToUsername el screenName (locationOf screenName)
    else el

/-- `processUsernames()`: one scan pass over all matched containers. -/
def processUsernames (locationOf : String → Option String)
    (els : List Container) : List Container :=
  els.map (scanContainer locationOf)

/-! ## Theorems -/

/-- If mapping `g` over a list yields no duplicates, then `g` is injective on
the list's members. -/
lemma mem_inj_of_nodup_map {α β : Type} (g : α → β) :
    ∀ l : List α, (l.map g).Nodup → ∀ x ∈ l, ∀ y ∈ l, g x = g y → x = y := by
  intro l
  induction l with
  | nil => intro _ x hx; exact absurd hx (List.not_mem_nil x)
  | cons a t ih =>
    intro hnd x hx y hy hg
    rw [List.map_cons, List.nodup_cons] at hnd
    rcases List.mem_cons.mp hx with hxa | hxt
    · rcases List.mem_cons.mp hy with hya | hyt
      · rw [hxa, hya]
      · exact absurd (hxa ▸ hg ▸ List.mem_map_of_mem g hyt) hnd.1
    · rcases List.mem_cons.mp hy with hya | hyt
      · exact absurd (hya ▸ hg ▸ List.mem_map_of_mem g hxt) hnd.1
      · exact ih hnd.2 x hxt y hyt hg

/-- In a table whose lowercased keys are duplicate-free, the first-match scan
by lowercased key finds exactly the member entry with that key. -/
lemma find?_lower_eq_some (l : List (String × String)) (k f : String)
    (hnd : (l.map (fun e => jsToLower e.1)).Nodup) (hmem : (k, f) ∈ l) :
    l.find? (fun e => jsToLower e.1 == jsToLower k) = some (k, f) := by
  induction l with
  | nil => exact absurd hmem (List.not_mem_nil _)
  | cons a t ih =>
    rw [List.map_cons, List.nodup_cons] at hnd
    rcases List.mem_cons.mp hmem with hak | hkt
    · rw [List.find?_cons, ← hak]
      simp
    · rw [List.find?_cons]
      have hne : (jsToLower a.1 == jsToLower k) = false := by
        rw [beq_eq_false_iff_ne]
        intro heq
        exact hnd.1 (heq ▸ List.mem_map_of_mem (fun e => jsToLower e.1) hkt)
      rw [hne]
      exact ih hnd.2 hkt

set_option maxRecDepth 20000 in
/-- The lowercased keys of the static flag table are pairwise distinct. -/
lemma flags_lower_nodup : (COUNTRY_FLAGS.map (fun e => jsToLower e.1)).Nodup := by
  decide

set_option maxRecDepth 20000 in
/-- Each key of the static flag table is its own trimmed form, lowercases to a
nonempty string, and maps to a nonempty glyph. -/
lemma flags_entries_ok :
    ∀ e ∈ COUNTRY_FLAGS, jsTrim e.1 = e.1 ∧ jsToLower e.1 ≠ "" ∧ e.2 ≠ "" := by
  decide

set_option maxRecDepth 20000 in
/-- No `Object.prototype` member name is a table key, verbatim or after
trimming and case folding. -/
lemma proto_members_not_keys :
    ∀ p ∈ OBJECT_PROTOTYPE_MEMBERS, ∀ e ∈ COUNTRY_FLAGS,
      e.1 ≠ p ∧ jsToLower e.1 ≠ jsToLower (jsTrim p) := by
  decide

set_option maxRecDepth 20000 in
/-- Counterexample to Claim C5 as stated: the input `"toString"` matches no
table key verbatim or case-insensitively after trimming, yet
`getCountryFlag` returns the truthy member inherited from
`Object.prototype` — not `null`. -/
theorem getCountryFlag_proto_counterexample :
    COUNTRY_FLAGS.all (fun e =>
      !(e.1 == "toString") &&
      !(jsToLower e.1 == jsToLower (jsTrim "toString"))) = true ∧
    getCountryFlag (some "toString") = JsValue.protoMember "toString" ∧
    getCountryFlag (some "toString") ≠ JsValue.nullv :=
  ⟨by decide, by decide, by decide⟩

set_option maxRecDepth 20000 in
/-- Claim C5 (amended): `getCountryFlag` returns `null` for a null and for an
empty name; every verbatim table key returns that key's glyph; every ASCII
string whose trimmed, case-folded form equals the case-folded form of some
table key returns that key's glyph; a string that is no table key but
names an `Object.prototype` member returns that truthy inherited member
instead of `null`; every other ASCII string returns `null`.  (The ASCII
hypotheses mark where the modeled folding and trimming coincide exactly
with the full-Unicode JS `toLowerCase`/`trim`.) -/
theorem getCountryFlag_amended_spec :
    getCountryFlag none = JsValue.nullv ∧
    getCountryFlag (some "") = JsValue.nullv ∧
    (∀ e ∈ COUNTRY_FLAGS, getCountryFlag (some e.1) = JsValue.str e.2) ∧
    (∀ s k f, (k, f) ∈ COUNTRY_FLAGS → isAsciiStr s = true →
      jsToLower (jsTrim s) = jsToLower k →
      getCountryFlag (some s) = JsValue.str f) ∧
    (∀ s, s ∈ OBJECT_PROTOTYPE_MEMBERS →
      getCountryFlag (some s) = JsValue.protoMember s) ∧
    (∀ s, isAsciiStr s = true → s ∉ OBJECT_PROTOTYPE_MEMBERS →
      (∀ e ∈ COUNTRY_FLAGS, e.1 ≠ s ∧ jsToLower e.1 ≠ jsToLower (jsTrim s)) →
      getCountryFlag (some s) = JsValue.nullv) := by
  refine ⟨rfl, by decide, by decide, ?_, by decide, ?_⟩
  · intro s k f hmem hascii h
    have hk := flags_entries_ok (k, f) hmem
    by_cases hs : s = ""
    · exact absurd (by rw [← h, hs]; decide) hk.2.1
    · simp only [getCountryFlag]
      rw [if_neg hs]
      cases hfind : COUNTRY_FLAGS.find? (fun e => e.1 == s) with
      | none =>
        have hnp : s ∉ OBJECT_PROTOTYPE_MEMBERS := by
          intro hp
          exact (proto_members_not_keys s hp (k, f) hmem).2 h.symm
        have hscan := find?_lower_eq_some COUNTRY_FLAGS k f flags_lower_nodup hmem
        simp only [h, hscan]
        rw [if_neg hnp]
      | some e =>
        have hes : e.1 = s := by
          have := List.find?_some hfind
          simpa using this
        have hemem : e ∈ COUNTRY_FLAGS := List.mem_of_find?_eq_some hfind
        have he := flags_entries_ok e hemem
        have hts : jsTrim s = s := by rw [← hes]; exact he.1
        have hlow : jsToLower e.1 = jsToLower k := by
          rw [hes, ← hts]
          exact h
        have hekf : e = (k, f) :=
          mem_inj_of_nodup_map (fun e => jsToLower e.1) COUNTRY_FLAGS
            flags_lower_nodup e hemem (k, f) hmem hlow
        simp only [if_neg he.2.2]
        rw [hekf]
  · intro s hascii hnp hnone
    by_cases hs : s = ""
    · rw [hs]; decide
    · simp only [getCountryFlag]
      rw [if_neg hs]
      have h1 : COUNTRY_FLAGS.find? (fun e => e.1 == s) = none := by
        rw [List.find?_eq_none]
        intro e he
        simpa using (hnone e he).1
      have h2 : COUNTRY_FLAGS.find?
          (fun e => jsToLower e.1 == jsToLower (jsTrim s)) = none := by
        rw [List.find?_eq_none]
        intro e he
        simpa using (hnone e he).2
      simp only [h1, h2]
      rw [if_neg hnp]

set_option maxRecDepth 20000 in
/-- Witness for the amended C5: an exact key, a case-and-whitespace variant,
the inherited `toString` member, and a plain miss. -/
theorem getCountryFlag_amended_spec_witness :
    getCountryFlag (some "United Kingdom") = JsValue.str "🇬🇧" ∧
    getCountryFlag (some "  UNITED kingdom  ") = JsValue.str "🇬🇧" ∧
    getCountryFlag (some "toString") = JsValue.protoMember "toString" ∧
    getCountryFlag (some "Atlantis") = JsValue.nullv :=
  ⟨getCountryFlag_amended_spec.2.2.1 ("United Kingdom", "🇬🇧") (by decide),
   getCountryFlag_amended_spec.2.2.2.1 "  UNITED kingdom  " "United Kingdom" "🇬🇧"
     (by decide) (by decide) (by decide),
   getCountryFlag_amended_spec.2.2.2.2.1 "toString" (by decide),
   getCountryFlag_amended_spec.2.2.2.2.2 "Atlantis" (by decide) (by decide)
     (by decide)⟩

/-- `filterMap` only depends on the pointwise behavior of its function. -/
lemma filterMap_congr_fun {α β : Type} (f g : α → Option β) (h : ∀ a, f a = g a) :
    ∀ l : List α, l.filterMap f = l.filterMap g := by
  intro l
  induction l with
  | nil => rfl
  | cons a t ih => simp only [List.filterMap_cons, h a, ih]

/-- Claim C7: after `load()`, a stored entry is admitted to the in-memory map
exactly when its expiry field exists and exceeds the load time (for a real
clock, `0 ≤ now`, so the truthiness test on the expiry adds nothing), and a
storage read or parse error yields an empty in-memory cache. -/
theorem loadCache_spec (entries : List (String × StoredEntry)) (now : Int)
    (hnow : 0 ≤ now) :
    loadCache (Except.ok entries) now = loadCacheSpecView entries now ∧
    loadCache (Except.error "read or parse failure") now = [] := by
  refine ⟨?_, rfl⟩
  simp only [loadCache, loadCacheSpecView]
  apply filterMap_congr_fun
  intro ud
  cases ud.2.expiry with
  | none => rfl
  | some e =>
    by_cases hlt : now < e
    · have hne : e ≠ 0 := by omega
      simp [hlt, hne]
    · simp [hlt]

/-- Witness for C7: a live entry is kept, an expired one and one with no
expiry field are dropped, and the error branch is empty. -/
theorem loadCache_spec_witness :
    loadCache (Except.ok
        [("alice", ⟨some "France", some 200, some 50⟩),
         ("bob", ⟨some "Spain", some 99, some 50⟩),
         ("carol", ⟨none, none, none⟩)]) 100
      = [("alice", some "France")] ∧
    loadCache (Except.error "read or parse failure") 100 = [] := by
  have h := loadCache_spec
    [("alice", ⟨some "France", some 200, some 50⟩),
     ("bob", ⟨some "Spain", some 99, some 50⟩),
     ("carol", ⟨none, none, none⟩)] 100 (by decide)
  exact ⟨h.1.trans (by decide), h.2⟩

/-- Claim C9: every flush stamps the same fresh `now + 30 days` expiry and
`cachedAt = now` on each serialized entry, and serializes exactly the
in-memory map (same handles, same locations, same order). -/
theorem saveCache_spec (cache : List (String × Option String)) (now : Int) :
    (∀ e ∈ saveCache cache now,
        e.2.expiry = some (now + CACHE_EXPIRY_MS) ∧ e.2.cachedAt = some now) ∧
    (saveCache cache now).map (fun e => (e.1, e.2.location)) = cache := by
  constructor
  · intro e he
    simp only [saveCache, List.mem_map] at he
    obtain ⟨a, _, rfl⟩ := he
    exact ⟨rfl, rfl⟩
  · simp only [saveCache, List.map_map]
    have hcomp : ((fun e : String × StoredEntry => (e.1, e.2.location)) ∘
        (fun e : String × Option String =>
          (e.1, (⟨e.2, some (now + CACHE_EXPIRY_MS), some now⟩ : StoredEntry))))
        = id := by
      funext a
      rfl
    rw [hcomp, List.map_id]

/-- Witness for C9 on a two-entry cache at time 100. -/
theorem saveCache_spec_witness :
    (("alice",
        (⟨some "France", some (100 + CACHE_EXPIRY_MS), some 100⟩ : StoredEntry)).2.expiry
      = some (100 + CACHE_EXPIRY_MS) ∧
     ("alice",
        (⟨some "France", some (100 + CACHE_EXPIRY_MS), some 100⟩ : StoredEntry)).2.cachedAt
      = some 100) ∧
    (saveCache [("alice", some "France"), ("bob", none)] 100).map
        (fun e => (e.1, e.2.location))
      = [("alice", some "France"), ("bob", none)] :=
  ⟨(saveCache_spec [("alice", some "France"), ("bob", none)] 100).1
      ("alice", ⟨some "France", some (100 + CACHE_EXPIRY_MS), some 100⟩)
      (by decide),
   (saveCache_spec [("alice", some "France"), ("bob", none)] 100).2⟩

/-- Inside the first put's 5-second window, later puts neither fire nor
reschedule the pending persist. -/
lemma runPuts_window (t1 : Int) :
    ∀ (rest : List (Int × String × Option String))
      (c : List (String × Option String))
      (blobs : List (List (String × StoredEntry))),
      (∀ p ∈ rest, t1 ≤ p.1 ∧ p.1 < t1 + 5000) →
      (runPuts ⟨c, some (t1 + 5000), blobs⟩ rest).saveTimeout = some (t1 + 5000) ∧
      (runPuts ⟨c, some (t1 + 5000), blobs⟩ rest).persistedBlobs = blobs := by
  intro rest
  induction rest with
  | nil => exact fun c blobs _ => ⟨rfl, rfl⟩
  | cons p ps ih =>
    intro c blobs hwin
    obtain ⟨t, u, loc⟩ := p
    have hp := hwin (t, u, loc) (List.mem_cons_self _ _)
    have hfire : fireSaveIfDue ⟨c, some (t1 + 5000), blobs⟩ t
        = ⟨c, some (t1 + 5000), blobs⟩ := by
      simp only [fireSaveIfDue]
      rw [if_neg (by omega)]
    have hstep : runPuts (⟨c, some (t1 + 5000), blobs⟩ : CacheIOState)
        ((t, u, loc) :: ps)
        = runPuts ⟨cacheInsert c u loc, some (t1 + 5000), blobs⟩ ps := by
      simp only [runPuts, hfire]
      rfl
    rw [hstep]
    exact ih _ _ (fun q hq => hwin q (List.mem_cons_of_mem _ hq))

/-- Claim C8: for a first put at `t1` followed by any puts inside its
5-second window, starting with no pending persist: the first put schedules
the one persist at `t1 + 5000`, the later puts schedule nothing, no write
happens before that timer fires, and its firing produces exactly one
write. -/
theorem debounce_single_write (t1 : Int) (u1 : String) (l1 : Option String)
    (rest : List (Int × String × Option String))
    (c0 : List (String × Option String))
    (hwin : ∀ p ∈ rest, t1 ≤ p.1 ∧ p.1 < t1 + 5000) :
    (runPuts ⟨c0, none, []⟩ ((t1, u1, l1) :: rest)).saveTimeout
      = some (t1 + 5000) ∧
    (runPuts ⟨c0, none, []⟩ ((t1, u1, l1) :: rest)).persistedBlobs = [] ∧
    (drainSaveTimer (runPuts ⟨c0, none, []⟩ ((t1, u1, l1) :: rest))).persistedBlobs.length
      = 1 := by
  have hstep : runPuts (⟨c0, none, []⟩ : CacheIOState) ((t1, u1, l1) :: rest)
      = runPuts ⟨cacheInsert c0 u1 l1, some (t1 + 5000), []⟩ rest := by
    simp only [runPuts, fireSaveIfDue]
    rfl
  rw [hstep]
  obtain ⟨hto, hblobs⟩ := runPuts_window t1 rest (cacheInsert c0 u1 l1) [] hwin
  refine ⟨hto, hblobs, ?_⟩
  simp only [drainSaveTimer, hto, fireSave, hblobs]
  rfl

/-- Witness for C8: three puts inside one window yield exactly one write. -/
theorem debounce_single_write_witness :
    (runPuts ⟨[], none, []⟩
        [(0, "a", some "France"), (4000, "b", none), (4999, "a", some "Spain")]).saveTimeout
      = some 5000 ∧
    (runPuts ⟨[], none, []⟩
        [(0, "a", some "France"), (4000, "b", none), (4999, "a", some "Spain")]).persistedBlobs
      = [] ∧
    (drainSaveTimer (runPuts ⟨[], none, []⟩
        [(0, "a", some "France"), (4000, "b", none), (4999, "a", some "Spain")])).persistedBlobs.length
      = 1 :=
  debounce_single_write 0 "a" (some "France")
    [(4000, "b", none), (4999, "a", some "Spain")] [] (by decide)

/-- Claim C6: when the handle is bound in the in-memory cache — including a
cached `null` — `getUserLocation` returns the cached value and the content
state is unchanged: nothing is enqueued and storage is untouched. -/
theorem getUserLocation_cache_hit (st : ContentState) (screenName : String)
    (v : Option String) (h : cacheGet st.locationCache screenName = some v) :
    getUserLocation st screenName = (LookupResult.cached v, st) := by
  simp only [getUserLocation, h]

/-- Witness for C6: a cache hit on a `null`-valued entry. -/
theorem getUserLocation_cache_hit_witness :
    getUserLocation ⟨[("alice", none)], [], 0⟩ "alice"
      = (LookupResult.cached none, ⟨[("alice", none)], [], 0⟩) :=
  getUserLocation_cache_hit ⟨[("alice", none)], [], 0⟩ "alice" none (by decide)

/-- After replacing the binding of a present key, the first hit of a key
search is the replaced binding. -/
lemma find?_map_set (u : String) (v : Option String) :
    ∀ c : List (String × Option String), c.any (fun e => e.1 == u) = true →
      (c.map (fun e => if e.1 == u then (u, v) else e)).find? (fun e => e.1 == u)
        = some (u, v) := by
  intro c
  induction c with
  | nil => intro h; simp at h
  | cons a t ih =>
    intro h
    by_cases ha : (a.1 == u) = true
    · simp only [List.map_cons, if_pos ha]
      exact List.find?_cons_of_pos _ (by simp)
    · simp only [List.map_cons, if_neg ha]
      rw [List.find?_cons_of_neg _ (by simpa using ha)]
      apply ih
      rw [List.any_cons] at h
      simpa [ha] using h

/-- `Map.set` then `Map.get` on the same key yields the written value. -/
lemma cacheGet_insert_self (c : List (String × Option String)) (u : String)
    (v : Option String) : cacheGet (cacheInsert c u v) u = some v := by
  simp only [cacheInsert, cacheGet]
  by_cases hany : c.any (fun e => e.1 == u) = true
  · rw [if_pos hany, find?_map_set u v c hany]
    rfl
  · rw [if_neg hany, List.find?_append]
    have h1 : c.find? (fun e => e.1 == u) = none := by
      rw [List.find?_eq_none]
      intro x hx hpx
      exact hany (List.any_eq_true.mpr ⟨x, hx, hpx⟩)
    rw [h1]
    simp

/-- A message stream with no matching response leaves a pending request
untouched. -/
lemma runMessages_no_match (screenName : String) (requestId : Int) :
    ∀ (evs : List MsgEvent) (req : PendingRequest),
      req.screenName = screenName → req.requestId = requestId →
      (∀ ev ∈ evs, matchesRequest screenName requestId ev = false) →
      runMessages req evs = req := by
  intro evs
  induction evs with
  | nil => intro req _ _ _; rfl
  | cons ev rest ih =>
    intro req hn hr hno
    have hone : handleLocationMessage req ev = req := by
      simp [handleLocationMessage, hn, hr, hno ev (List.mem_cons_self _ _)]
    have hstep : runMessages req (ev :: rest)
        = runMessages (handleLocationMessage req ev) rest := rfl
    rw [hstep, hone]
    exact ih req hn hr (fun e he => hno e (List.mem_cons_of_mem _ he))

/-- Claim C3: a dispatched lookup that sees no matching response before its
10-second timer fires resolves — never rejects — with `null`, and the
handle's in-memory cache entry is `null` afterwards. -/
theorem timeout_resolves_null (screenName : String) (requestId : Int)
    (c0 : List (String × Option String)) (evs : List MsgEvent)
    (hno : ∀ ev ∈ evs, matchesRequest screenName requestId ev = false) :
    (fireRequestTimeout (runMessages (initRequest screenName requestId c0) evs)).outcome
      = some (PromiseOutcome.resolvedWith none) ∧
    cacheGet (fireRequestTimeout
        (runMessages (initRequest screenName requestId c0) evs)).cache screenName
      = some none := by
  rw [runMessages_no_match screenName requestId evs
    (initRequest screenName requestId c0) rfl rfl hno]
  exact ⟨rfl, cacheGet_insert_self c0 screenName none⟩

/-- Witness for C3: a request for `alice` that only ever sees a non-matching
message; the stale cached location is overwritten by `null`. -/
theorem timeout_resolves_null_witness :
    (fireRequestTimeout (runMessages (initRequest "alice" 42 [("alice", some "France")])
        [⟨true, "__fetchLocation", "alice", 42, none⟩])).outcome
      = some (PromiseOutcome.resolvedWith none) ∧
    cacheGet (fireRequestTimeout
        (runMessages (initRequest "alice" 42 [("alice", some "France")])
          [⟨true, "__fetchLocation", "alice", 42, none⟩])).cache "alice"
      = some none :=
  timeout_resolves_null "alice" 42 [("alice", some "France")]
    [⟨true, "__fetchLocation", "alice", 42, none⟩] (by decide)

/-- Claim C4: the 10-second timer is never cancelled.  Even when a matching
response already cached and resolved a non-null location, the timer's later
firing leaves the promise at that location but overwrites the handle's
in-memory cache entry with `null`. -/
theorem timeout_overwrites_cached_location (screenName : String) (requestId : Int)
    (c0 : List (String × Option String)) (loc : String) (hloc : loc ≠ "") :
    (handleLocationMessage (initRequest screenName requestId c0)
        ⟨true, "__locationResponse", screenName, requestId, some loc⟩).outcome
      = some (PromiseOutcome.resolvedWith (some loc)) ∧
    cacheGet (handleLocationMessage (initRequest screenName requestId c0)
        ⟨true, "__locationResponse", screenName, requestId, some loc⟩).cache screenName
      = some (some loc) ∧
    (fireRequestTimeout (handleLocationMessage (initRequest screenName requestId c0)
        ⟨true, "__locationResponse", screenName, requestId, some loc⟩)).outcome
      = some (PromiseOutcome.resolvedWith (some loc)) ∧
    cacheGet (fireRequestTimeout (handleLocationMessage (initRequest screenName requestId c0)
        ⟨true, "__locationResponse", screenName, requestId, some loc⟩)).cache screenName
      = some none := by
  have h1 : handleLocationMessage (initRequest screenName requestId c0)
      ⟨true, "__locationResponse", screenName, requestId, some loc⟩
      = { screenName := screenName, requestId := requestId, listenerActive := false,
          outcome := some (PromiseOutcome.resolvedWith (some loc)),
          cache := cacheInsert c0 screenName (some loc) } := by
    simp [handleLocationMessage, initRequest, matchesRequest, jsOrNull, hloc, resolveOnce]
  rw [h1]
  exact ⟨rfl, cacheGet_insert_self c0 screenName (some loc), rfl,
    cacheGet_insert_self (cacheInsert c0 screenName (some loc)) screenName none⟩

/-- Witness for C4: the response cached `France`, the stale timeout then
reset the entry to `null` while the promise kept `France`. -/
theorem timeout_overwrites_cached_location_witness :
    (handleLocationMessage (initRequest "alice" 42 [])
        ⟨true, "__locationResponse", "alice", 42, some "France"⟩).outcome
      = some (PromiseOutcome.resolvedWith (some "France")) ∧
    cacheGet (handleLocationMessage (initRequest "alice" 42 [])
        ⟨true, "__locationResponse", "alice", 42, some "France"⟩).cache "alice"
      = some (some "France") ∧
    (fireRequestTimeout (handleLocationMessage (initRequest "alice" 42 [])
        ⟨true, "__locationResponse", "alice", 42, some "France"⟩)).outcome
      = some (PromiseOutcome.resolvedWith (some "France")) ∧
    cacheGet (fireRequestTimeout (handleLocationMessage (initRequest "alice" 42 [])
        ⟨true, "__locationResponse", "alice", 42, some "France"⟩)).cache "alice"
      = some none :=
  timeout_overwrites_cached_location "alice" 42 [] "France" (by decide)

/-- Claim C10: an element whose tag is `'true'` (done) is skipped by a scan
pass and untouched by a direct `addFlagToUsername` call, regardless of what
the location oracle (cache) answers. -/
theorem done_tag_is_terminal (el : Container) (screenName : String)
    (location : Option String) (locationOf : String → Option String)
    (h : el.flagAdded = some "true") :
    addFlagToUsername el screenName location = el ∧
    scanContainer locationOf el = el ∧
    processUsernames locationOf [el] = [el] := by
  have h1 : addFlagToUsername el screenName location = el := by
    simp [addFlagToUsername, h]
  have h2 : scanContainer locationOf el = el := by
    simp only [scanContainer]
    cases hex : extractUsername el with
    | none => rfl
    | some n =>
      have hcond : (tagFalsy el.flagAdded || el.flagAdded == some "failed") = false := by
        rw [h]
        decide
      simp [hcond]
  exact ⟨h1, h2, by simp [processUsernames, h2]⟩

/-- Witness for C10: a concrete done-tagged container whose handle resolves
to a mappable location is still left untouched. -/
theorem done_tag_is_terminal_witness :
    addFlagToUsername
        ⟨some "true", [⟨"/alice", "@alice", false⟩],
         some [⟨"/alice", "@alice", false⟩], []⟩ "alice" (some "France")
      = ⟨some "true", [⟨"/alice", "@alice", false⟩],
         some [⟨"/alice", "@alice", false⟩], []⟩ ∧
    scanContainer (fun _ => some "France")
        ⟨some "true", [⟨"/alice", "@alice", false⟩],
         some [⟨"/alice", "@alice", false⟩], []⟩
      = ⟨some "true", [⟨"/alice", "@alice", false⟩],
         some [⟨"/alice", "@alice", false⟩], []⟩ ∧
    processUsernames (fun _ => some "France")
        [⟨some "true", [⟨"/alice", "@alice", false⟩],
          some [⟨"/alice", "@alice", false⟩], []⟩]
      = [⟨some "true", [⟨"/alice", "@alice", false⟩],
          some [⟨"/alice", "@alice", false⟩], []⟩] :=
  done_tag_is_terminal
    ⟨some "true", [⟨"/alice", "@alice", false⟩],
     some [⟨"/alice", "@alice", false⟩], []⟩
    "alice" (some "France") (fun _ => some "France") rfl

/-- `dispatchHead` on a nonempty queue, written out. -/
lemma dispatchHead_cons (s : QueueState) (id : Nat) (rest : List Nat)
    (hq : s.requestQueue = id :: rest) :
    dispatchHead s = { s with
                       requestQueue := rest,
                       activeRequests := s.activeRequests + 1,
                       lastRequestTime := s.time,
                       inFlight := id :: s.inFlight,
                       dispatchTimes := s.time :: s.dispatchTimes } := by
  simp only [dispatchHead, hq]

/-- `dispatchHead` on an empty queue does nothing. -/
lemma dispatchHead_nil (s : QueueState) (hq : s.requestQueue = []) :
    dispatchHead s = s := by
  simp only [dispatchHead, hq]

/-- Dispatching from a state with a free slot and a full throttle interval
since the last dispatch preserves the loop invariant and the sleep flag. -/
lemma dispatchHead_loopInv (s : QueueState) (hinv : LoopInv s)
    (hact : s.activeRequests < MAX_CONCURRENT_REQUESTS)
    (hgap : s.lastRequestTime + MIN_REQUEST_INTERVAL ≤ s.time) :
    LoopInv (dispatchHead s) ∧ (dispatchHead s).sleepUntil = s.sleepUntil := by
  obtain ⟨hle, hchain, hhead⟩ := hinv
  cases hq : s.requestQueue with
  | nil => rw [dispatchHead_nil s hq]; exact ⟨⟨hle, hchain, hhead⟩, rfl⟩
  | cons id rest =>
    rw [dispatchHead_cons s id rest hq]
    refine ⟨⟨hact, ?_, Or.inr rfl⟩, rfl⟩
    rw [List.chain'_cons']
    refine ⟨?_, hchain⟩
    intro y hy
    rcases hhead with hnil | hh
    · rw [hnil] at hy
      simp at hy
    · rw [hh] at hy
      simp only [Option.mem_def, Option.some_inj] at hy
      omega

/-- The dispatch loop, entered while not sleeping, preserves the loop
invariant and establishes the sleep invariant. -/
lemma loopIterFuel_inv : ∀ (fuel : Nat) (s : QueueState),
    LoopInv s → s.sleepUntil = none →
    LoopInv (loopIterFuel fuel s) ∧ SleepInv (loopIterFuel fuel s) := by
  intro fuel
  induction fuel with
  | zero =>
    intro s hinv hsleep
    refine ⟨hinv, fun r hr => ?_⟩
    have hr' : s.sleepUntil = some r := hr
    rw [hsleep] at hr'
    exact absurd hr' (by simp)
  | succ n ih =>
    intro s hinv hsleep
    simp only [loopIterFuel]
    by_cases hstop : s.requestQueue = [] ∨ MAX_CONCURRENT_REQUESTS ≤ s.activeRequests
    · rw [if_pos hstop]
      refine ⟨⟨hinv.1, hinv.2.1, hinv.2.2⟩, fun r hr => ?_⟩
      exact absurd hr (by simp)
    · rw [if_neg hstop]
      push_neg at hstop
      obtain ⟨hq, hact⟩ := hstop
      by_cases hwait : s.time - s.lastRequestTime < MIN_REQUEST_INTERVAL
      · rw [if_pos hwait]
        refine ⟨⟨hinv.1, hinv.2.1, hinv.2.2⟩, fun r hr => ?_⟩
        have hr' : some (s.lastRequestTime + MIN_REQUEST_INTERVAL) = some r := hr
        simp only [Option.some_inj] at hr'
        exact ⟨hr'.symm, hact, hq⟩
      · rw [if_neg hwait]
        have hgap : s.lastRequestTime + MIN_REQUEST_INTERVAL ≤ s.time := by omega
        obtain ⟨hinv', heq⟩ :=
          dispatchHead_loopInv s ⟨hinv.1, hinv.2.1, hinv.2.2⟩ hact hgap
        exact ih (dispatchHead s) hinv' (heq.trans hsleep)

/-- A fresh `processRequestQueue` invocation preserves the queue invariant. -/
lemma processRequestQueue_inv (s : QueueState) (hinv : QInv s) :
    QInv (processRequestQueue s) := by
  obtain ⟨hloop, hsleep⟩ := hinv
  simp only [processRequestQueue]
  by_cases hguard : s.sleepUntil.isSome = true ∨ s.requestQueue.isEmpty = true
  · rw [if_pos hguard]
    exact ⟨hloop, hsleep⟩
  · rw [if_neg hguard]
    push_neg at hguard
    have hnone : s.sleepUntil = none := by
      cases h : s.sleepUntil with
      | none => rfl
      | some r => rw [h] at hguard; simp at hguard
    by_cases hlim : 0 < s.rateLimitResetTime ∧ s.time / 1000 < s.rateLimitResetTime
    · rw [if_pos hlim]
      refine ⟨⟨hloop.1, hloop.2.1, hloop.2.2⟩, fun r hr => ?_⟩
      have hr' : s.sleepUntil = some r := hr
      rw [hnone] at hr'
      exact absurd hr' (by simp)
    · rw [if_neg hlim]
      simp only [loopIter]
      exact loopIterFuel_inv _ _ ⟨hloop.1, hloop.2.1, hloop.2.2⟩ hnone

/-- Every event-loop turn preserves the queue invariant. -/
lemma qstep_inv {s s' : QueueState} (h : QStep s s') (hinv : QInv s) : QInv s' := by
  obtain ⟨hloop, hsleep⟩ := hinv
  cases h with
  | arrive id t ht =>
    apply processRequestQueue_inv
    refine ⟨⟨hloop.1, hloop.2.1, hloop.2.2⟩, fun r hr => ?_⟩
    obtain ⟨h1, h2, h3⟩ := hsleep r hr
    exact ⟨h1, h2, by simp⟩
  | timerFire t r0 ht hmem hdue =>
    apply processRequestQueue_inv
    exact ⟨⟨hloop.1, hloop.2.1, hloop.2.2⟩, fun r hr => hsleep r hr⟩
  | resume t r0 ht hs0 hdue =>
    obtain ⟨hr0, hact, hq⟩ := hsleep r0 hs0
    have hgap : ({ s with time := t, sleepUntil := none } : QueueState).lastRequestTime
        + MIN_REQUEST_INTERVAL
        ≤ ({ s with time := t, sleepUntil := none } : QueueState).time := by
      show s.lastRequestTime + MIN_REQUEST_INTERVAL ≤ t
      omega
    obtain ⟨hinv', heq⟩ :=
      dispatchHead_loopInv { s with time := t, sleepUntil := none }
        ⟨hloop.1, hloop.2.1, hloop.2.2⟩ hact hgap
    simp only [loopIter]
    exact loopIterFuel_inv _ _ hinv' heq
  | complete id t ht hid =>
    refine ⟨⟨le_trans (Nat.sub_le _ _) hloop.1, hloop.2.1, hloop.2.2⟩,
      fun r hr => ?_⟩
    obtain ⟨h1, h2, h3⟩ := hsleep r hr
    exact ⟨h1, Nat.lt_of_le_of_lt (Nat.sub_le _ _) h2, h3⟩
  | rateLimitSignal resetTime t ht =>
    exact ⟨⟨hloop.1, hloop.2.1, hloop.2.2⟩, fun r hr => hsleep r hr⟩

/-- The queue invariant holds in every reachable state. -/
lemma qreach_inv {s : QueueState} (h : QReach s) : QInv s := by
  induction h with
  | init t ht =>
    refine ⟨⟨Nat.zero_le _, List.chain'_nil, Or.inl rfl⟩, fun r hr => ?_⟩
    exact absurd hr (by simp [initialQueueState])
  | step _ hstep ih => exact qstep_inv hstep ih

/-- Claim C1: in every reachable state of the queue processor at most
`MAX_CONCURRENT_REQUESTS = 2` requests are dispatched but unresolved, and
successive dispatch start times (recorded newest first) are at least
`MIN_REQUEST_INTERVAL = 2000` ms apart, measured start to start. -/
theorem rate_limiter_invariant (s : QueueState) (h : QReach s) :
    s.activeRequests ≤ MAX_CONCURRENT_REQUESTS ∧
    List.Chain' (fun a b => b + MIN_REQUEST_INTERVAL ≤ a) s.dispatchTimes :=
  ⟨(qreach_inv h).1.1, (qreach_inv h).1.2.1⟩

/-- Witness for C1: the concrete three-step trace ending at `qs3`, with two
in-flight requests dispatched 2500 ms apart. -/
theorem rate_limiter_invariant_witness :
    qs3.activeRequests ≤ MAX_CONCURRENT_REQUESTS ∧
    List.Chain' (fun a b => b + MIN_REQUEST_INTERVAL ≤ a) qs3.dispatchTimes :=
  rate_limiter_invariant qs3
    (QReach.step
      (QReach.step
        (QReach.step (QReach.init 1000000 (by decide))
          (QStep.arrive qs0 1 1000000 (by decide)))
        (QStep.arrive qs1 2 1000000 (by decide)))
      (QStep.resume qs2 1002500 1002000 (by decide) (by decide) (by decide)))

/-- Counterexample to Claim C2 as stated: from the reachable state `qsA` —
sleeping in its throttle, with a rate-limit reset of epoch second 2000000
already recorded — one step dispatches a new request at clock second 1002,
long before the reset time passes. -/
theorem rate_limit_not_consulted_on_resume :
    QReach qsA ∧ QStep qsA qsB ∧
    0 < qsA.rateLimitResetTime ∧
    qsB.rateLimitResetTime = qsA.rateLimitResetTime ∧
    qsB.time / 1000 < qsA.rateLimitResetTime ∧
    qsB.dispatchTimes.length = qsA.dispatchTimes.length + 1 := by
  refine ⟨?_, ?_, by decide, by decide, by decide, by decide⟩
  · exact QReach.step
      (QReach.step
        (QReach.step (QReach.init 1000000 (by decide))
          (QStep.arrive qs0 1 1000000 (by decide)))
        (QStep.arrive qs1 2 1000000 (by decide)))
      (QStep.rateLimitSignal qs2 2000000 1000100 (by decide))
  · exact QStep.resume qsA 1002500 1002000 (by decide) (by decide) (by decide)

/-- Claim C2 (amended): a fresh `processRequestQueue` invocation — one not
already mid-run — consults the rate-limit state before dispatching: while
the clock is before the recorded reset it dispatches nothing, leaves the
queue intact, and schedules a recheck after `min(remaining wait, 60 s)`.
(A run already suspended in its throttle sleep dispatches on resume without
rechecking; see the counterexample.) -/
theorem rate_limited_invoke_defers (s : QueueState)
    (hidle : s.sleepUntil = none) (hq : s.requestQueue ≠ [])
    (hlim : 0 < s.rateLimitResetTime)
    (hnow : s.time / 1000 < s.rateLimitResetTime) :
    processRequestQueue s = { s with pendingTimers := s.pendingTimers ++
      [s.time + min ((s.rateLimitResetTime - s.time / 1000) * 1000) 60000] } := by
  have hg : ¬(s.sleepUntil.isSome = true ∨ s.requestQueue.isEmpty = true) := by
    simp [hidle, hq]
  simp only [processRequestQueue]
  rw [if_neg hg, if_pos ⟨hlim, hnow⟩]

/-- Witness for the amended C2: an idle rate-limited state defers with a
recheck timer at `1000000 + min(5000, 60000) = 1005000`, dispatching
nothing. -/
theorem rate_limited_invoke_defers_witness :
    processRequestQueue qLimited = { qLimited with pendingTimers := [1005000] } :=
  rate_limited_invoke_defers qLimited rfl (by decide) (by decide) (by decide)

end TwitterFlags
